import Mathlib

/-!
Verification of the request/response translation engine of the
`genkit-aws-bedrock-go` plugin (package `bedrock`).  The Go source is
shallowly embedded: dynamically typed Go values (`interface{}` /
`map[string]interface{}`) become the inductive `GoValue` and association
lists with string keys, Go strings stay Lean `String`s, and the handful of
standard-library helpers the code calls (`strings.Split`,
`strings.HasPrefix`, `strconv.ParseFloat`, `strconv.ParseBool`,
`strconv.ParseInt`) are reimplemented faithfully for the decimal/ASCII
inputs the plugin feeds them.  Network calls and base64/JSON byte-level
encoding are external collaborators and are modelled at their
call-boundary (a parsed wire response is taken as input; image bytes are
carried as the undecoded base64 payload string).
-/

namespace Bedrock

/-- A dynamically typed Go value (`interface{}`) as produced by JSON
decoding or handed in by callers.  The numeric constructors keep Go's
distinct dynamic types (`int`, `int32`, `int64`, `float32`, `float64`)
apart because the source type-switches on them; floats are modelled as
exact rationals.  `vNumber` is the AWS smithy `document.Number` wrapper (a
string-backed arbitrary-precision number).  `vStrings` is a Go `[]string`
(distinct from `[]interface{}`, which is `vArr`).  `vOther` stands for any
dynamic type the source never inspects. -/
inductive GoValue where
  | vNull
  | vBool (b : Bool)
  | vString (s : String)
  | vInt (n : Int)
  | vInt32 (n : Int)
  | vInt64 (n : Int)
  | vFloat32 (q : Rat)
  | vFloat64 (q : Rat)
  | vNumber (raw : String)
  | vArr (l : List GoValue)
  | vMap (m : List (String × GoValue))
  | vStrings (l : List String)
  | vOther

/-- A Go `map[string]interface{}`, modelled as a key-unique association
list (Go maps are unordered; all properties proved below are
order-insensitive or hold for every ordering). -/
abbrev GoMap := List (String × GoValue)

/-- Key lookup in a `GoMap`: `m[k]`, returning `none` for a missing key. -/
def goLookup (k : String) : GoMap → Option GoValue
  | [] => none
  | (k', v) :: rest => if k' = k then some v else goLookup k rest

/-- Go dynamic equality of an `interface{}` value against a string
constant (`v == "object"`): true exactly when the dynamic type is `string`
and the contents agree. -/
def goIsStringEq (v : Option GoValue) (s : String) : Bool :=
  match v with
  | some (GoValue.vString t) => t = s
  | _ => false

/-- The draft-07 identifier the source inserts under `$schema`. -/
def draft07 : String := "http://json-schema.org/draft-07/schema#"

/-- First defaulting block of `validateAndNormalizeJSONSchema`: default
`type` to `"object"` when absent. -/
def defaultTypeStep (m : GoMap) : GoMap :=
  if (goLookup "type" m).isNone then m ++ [("type", GoValue.vString "object")] else m

/-- Second defaulting block: default `properties` to an empty map when the
current `type` value is the string `"object"` and `properties` is
absent. -/
def defaultPropsStep (m : GoMap) : GoMap :=
  if goIsStringEq (goLookup "type" m) "object" && (goLookup "properties" m).isNone then
    m ++ [("properties", GoValue.vMap [])]
  else m

/-- Third defaulting block: default `$schema` to the draft-07 identifier
when absent. -/
def defaultSchemaStep (m : GoMap) : GoMap :=
  if (goLookup "$schema" m).isNone then m ++ [("$schema", GoValue.vString draft07)] else m

/-- Go source `validateAndNormalizeJSONSchema`: copy the schema map, then
apply the three defaulting blocks in source order.  The Go copy loop
(`for k, v := range schema`) is the identity on the association-list
model; inserting a fresh key is modelled as appending it. -/
def validateAndNormalizeJSONSchema (schema : GoMap) : GoMap :=
  defaultSchemaStep (defaultPropsStep (defaultTypeStep schema))

/-- Input to `normalizeSchema`, one constructor per arm of the Go type
switch.  JSON decoding (`json.Unmarshal`) and marshalling are external
standard-library collaborators, so the string/bytes/other arms carry the
decode result at the call boundary: `none` models a decode (or
marshal-roundtrip) failure. -/
inductive SchemaInput where
  | jmap (m : GoMap)
  | jstr (decoded : Option GoMap)
  | jbytes (decoded : Option GoMap)
  | jother (roundtrip : Option GoMap)

/-- Go source `normalizeSchema`: route every decodable representation
through `validateAndNormalizeJSONSchema`, surfacing a decode failure as an
error. -/
def normalizeSchema : SchemaInput → Except String GoMap
  | .jmap m => .ok (validateAndNormalizeJSONSchema m)
  | .jstr d =>
    match d with
    | some m => .ok (validateAndNormalizeJSONSchema m)
    | none => .error "failed to parse schema JSON"
  | .jbytes d =>
    match d with
    | some m => .ok (validateAndNormalizeJSONSchema m)
    | none => .error "failed to parse schema JSON bytes"
  | .jother d =>
    match d with
    | some m => .ok (validateAndNormalizeJSONSchema m)
    | none => .error "failed to unmarshal schema"

/-- The decoded mapping underlying a schema input, when decodable. -/
def decodedOf : SchemaInput → Option GoMap
  | .jmap m => some m
  | .jstr d => d
  | .jbytes d => d
  | .jother d => d

/-- Decimal digit test, as in Go's number parsers. -/
def isDecDigit (c : Char) : Bool := '0' ≤ c && c ≤ '9'

/-- Accumulate a digit list into a natural number. -/
def digitsToNat (l : List Char) : Nat :=
  l.foldl (fun acc c => 10 * acc + (c.toNat - '0'.toNat)) 0

/-- Modelled from Go `strconv.ParseFloat`, restricted to plain decimal
literals (optional sign, integer digits, optional fractional digits; no
exponent/hex/Inf forms) — the only shapes the plugin's inputs take.  The
result is exact as a rational. -/
def parseGoFloat (s : String) : Option Rat :=
  let cs := s.data
  let signed : Bool × List Char :=
    match cs with
    | '-' :: r => (true, r)
    | '+' :: r => (false, r)
    | r => (false, r)
  let neg := signed.1
  let body := signed.2
  let intD := body.takeWhile isDecDigit
  let rest := body.dropWhile isDecDigit
  let mag : Option Rat :=
    match rest with
    | [] => if intD.isEmpty then none else some (digitsToNat intD)
    | '.' :: frac =>
      if frac.all isDecDigit && !(intD.isEmpty && frac.isEmpty) then
        some ((digitsToNat intD : Rat) +
          (digitsToNat frac : Rat) / ((10 : Rat) ^ frac.length))
      else none
    | _ => none
  mag.map (fun q => if neg then -q else q)

/-- Modelled from Go `strconv.ParseInt` (base 10), as used by the smithy
`document.Number.Int64` accessor: optional sign followed by decimal
digits. -/
def parseGoInt (s : String) : Option Int :=
  let cs := s.data
  let signed : Bool × List Char :=
    match cs with
    | '-' :: r => (true, r)
    | '+' :: r => (false, r)
    | r => (false, r)
  if signed.2.isEmpty || !(signed.2.all isDecDigit) then none
  else
    let n : Int := digitsToNat signed.2
    some (if signed.1 then -n else n)

/-- Modelled from Go `strconv.ParseBool`: the exact accepted literals. -/
def parseGoBool (s : String) : Option Bool :=
  if s = "1" || s = "t" || s = "T" || s = "TRUE" || s = "true" || s = "True" then
    some true
  else if s = "0" || s = "f" || s = "F" || s = "FALSE" || s = "false" || s = "False" then
    some false
  else none

/-- Go float-to-int64 conversion: truncation toward zero. -/
def truncRat (q : Rat) : Int := Int.tdiv q.num q.den

mutual

/-- Go source `convertValueWithSchema`: re-type a single decoded value to
match the schema's declared `type`.  The Go fall-through structure (smithy
`Number` accessor, then string parsing, then native numeric width casts,
then array/object recursion, else pass through unchanged) collapses to one
match on the value's dynamic type, since each stage only fires for its own
dynamic type. -/
def convertValueWithSchema (value : GoValue) (schema : GoMap) : GoValue :=
  match goLookup "type" schema with
  | some (GoValue.vString schemaType) =>
    match value with
    | .vNumber raw =>
      if schemaType = "number" then
        match parseGoFloat raw with
        | some f => .vFloat64 f
        | none => value
      else if schemaType = "integer" then
        match parseGoInt raw with
        | some i => .vInt64 i
        | none => value
      else value
    | .vString s =>
      if schemaType = "number" || schemaType = "integer" then
        match parseGoFloat s with
        | some f => if schemaType = "integer" then .vInt64 (truncRat f) else .vFloat64 f
        | none => value
      else if schemaType = "boolean" then
        match parseGoBool s with
        | some b => .vBool b
        | none => value
      else value
    | .vInt n =>
      if schemaType = "number" then .vFloat64 n
      else if schemaType = "integer" then .vInt64 n
      else value
    | .vInt32 n =>
      if schemaType = "number" then .vFloat64 n
      else if schemaType = "integer" then .vInt64 n
      else value
    | .vInt64 n =>
      if schemaType = "number" then .vFloat64 n
      else if schemaType = "integer" then .vInt64 n
      else value
    | .vFloat32 q =>
      if schemaType = "number" then .vFloat64 q
      else if schemaType = "integer" then .vInt64 (truncRat q)
      else value
    | .vFloat64 q =>
      if schemaType = "number" then .vFloat64 q
      else if schemaType = "integer" then .vInt64 (truncRat q)
      else value
    | .vArr l =>
      if schemaType = "array" then
        match goLookup "items" schema with
        | some (GoValue.vMap items) => .vArr (convertArrayWithSchema l items)
        | _ => value
      else value
    | .vMap m =>
      if schemaType = "object" then convertMapWithSchema m schema else value
    | _ => value
  | _ => value

/-- Element-wise coercion of a Go `[]interface{}` against the `items`
sub-schema (the loop body of the array case). -/
def convertArrayWithSchema (l : List GoValue) (items : GoMap) : List GoValue :=
  match l with
  | [] => []
  | x :: xs => convertValueWithSchema x items :: convertArrayWithSchema xs items

/-- Go source `convertMapWithSchema`: when the schema is an object schema
with a `properties` map, rebuild the map coercing each present key through
its property sub-schema (keys without a matching map-valued sub-schema
pass through); otherwise return the input map unchanged. -/
def convertMapWithSchema (inputMap : GoMap) (schema : GoMap) : GoValue :=
  match goLookup "type" schema, goLookup "properties" schema with
  | some (GoValue.vString "object"), some (GoValue.vMap props) =>
    .vMap (convertMapEntries inputMap props)
  | _, _ => .vMap inputMap

/-- The per-key loop of `convertMapWithSchema`. -/
def convertMapEntries (inputMap : GoMap) (props : GoMap) : GoMap :=
  match inputMap with
  | [] => []
  | (k, v) :: rest =>
    let v' :=
      match goLookup k props with
      | some (GoValue.vMap propSchema) => convertValueWithSchema v propSchema
      | _ => v
    (k, v') :: convertMapEntries rest props

end

/-- A genkit `ai.ToolDefinition` as read by this plugin: name,
description and an optional `map[string]any` input schema (`none` models a
nil map). -/
structure ToolDefinition where
  name : String
  description : String
  inputSchema : Option GoMap

/-- Go source `convertToolInputTypes`: resolve the tool definition by
exact name match (first match wins); without a match (or without a
schema) return the raw decoded map, otherwise coerce it against the
tool's schema. -/
def convertToolInputTypes (inputMap : GoMap) (toolName : String)
    (tools : List ToolDefinition) : GoValue :=
  match tools.find? (fun t => t.name = toolName) with
  | none => .vMap inputMap
  | some t =>
    match t.inputSchema with
    | none => .vMap inputMap
    | some schema => convertMapWithSchema inputMap schema


/-- Go `strings.Split` with a one-character separator, on character
lists: splitting never yields an empty list, and the separator is dropped.
-/
def splitChar (sep : Char) : List Char → List (List Char)
  | [] => [[]]
  | c :: cs =>
    if c = sep then [] :: splitChar sep cs
    else
      match splitChar sep cs with
      | [] => [[c]]
      | h :: t => (c :: h) :: t

/-- Go `strings.Split(s, sep)` for a one-character separator. -/
def goSplit (sep : Char) (s : String) : List String :=
  (splitChar sep s.data).map List.asString

/-- Character-list prefix test. -/
def charsIsPrefix : List Char → List Char → Bool
  | [], _ => true
  | _ :: _, [] => false
  | c :: cs, d :: ds => c == d && charsIsPrefix cs ds

/-- Go `strings.HasPrefix`. -/
def goStartsWith (p s : String) : Bool := charsIsPrefix p.data s.data

/-- The wire `types.ImageFormat` enumeration. -/
inductive ImageFormat where
  | png
  | jpeg
  | gif
  | webp
  deriving DecidableEq, Repr

/-- Generic message roles (`ai.Role`). -/
inductive AiRole where
  | system
  | user
  | model
  | tool
  deriving DecidableEq, Repr

/-- A generic message part (`ai.Part`): the genkit tagged union.  A media
part's `content` is the part's `Text` field (a data URL or raw base64),
exactly as the source reads it.  `otherPart` covers any variant the
builder does not recognise (for example a cache point). -/
inductive Part where
  | text (s : String)
  | media (contentType : String) (content : String)
  | toolRequest (name : String) (ref : String) (input : GoValue)
  | toolResponse (ref : String) (output : Option GoValue)
  | otherPart

/-- A generic message (`ai.Message`). -/
structure AiMessage where
  role : AiRole
  content : List Part

/-- Wire conversation roles (`types.ConversationRole`). -/
inductive ConversationRole where
  | user
  | assistant
  deriving DecidableEq, Repr

/-- A wire content block (`types.ContentBlock`).  The image block carries
the payload string still base64-encoded: the source's
`base64.StdEncoding.DecodeString` (with raw-bytes fallback on failure) is
an external standard-library step whose byte-level output no claim
inspects.  A tool-result block's content is the list of its text blocks;
its status is always `success` in the source. -/
inductive ContentBlock where
  | text (s : String)
  | image (format : ImageFormat) (source : String)
  | toolUse (id : String) (name : String) (input : GoValue)
  | toolResult (id : String) (content : List String)

/-- A wire message (`types.Message`). -/
structure WireMessage where
  role : ConversationRole
  content : List ContentBlock

/-- The media-part header analysis inside `buildConverseInput`: starting
from the part's `ContentType` and payload, a `data:` URL splitting into
exactly two comma-separated pieces replaces the payload by the part after
the comma and, when `ContentType` is unset, recovers the MIME type from
the URL header.  Returns `(mediaType, payload)`. -/
def mediaEffective (contentType content : String) : String × String :=
  if goStartsWith "data:" content then
    let parts := goSplit ',' content
    if parts.length = 2 then
      let payload := parts.getD 1 ""
      let mediaType :=
        if contentType = "" then
          let urlParts := goSplit ':' (parts.getD 0 "")
          if urlParts.length > 1 then (goSplit ';' (urlParts.getD 1 "")).headD ""
          else contentType
        else contentType
      (mediaType, payload)
    else (contentType, content)
  else (contentType, content)

/-- The MIME-type to wire-image-format switch of `buildConverseInput`,
defaulting to PNG for any unrecognised type. -/
def formatOfMediaType (mediaType : String) : ImageFormat :=
  if mediaType = "image/png" then .png
  else if mediaType = "image/jpeg" || mediaType = "image/jpg" then .jpeg
  else if mediaType = "image/gif" then .gif
  else if mediaType = "image/webp" then .webp
  else .png

/-- Placeholder for the Go `fmt.Sprintf` fallback used when JSON-encoding
a tool output fails; its exact text is never inspected by the source or
any claim. -/
def goSprintfV (_ : GoValue) : String := "<unencodable>"

mutual

/-- Modelled from Go `encoding/json.Marshal` over the dynamic values of
this embedding (string escaping and float formatting simplified; `none`
models a marshal error, which in Go arises only for unserialisable
dynamic types, here `vOther`). -/
def goJsonEncode : GoValue → Option String
  | .vNull => some "null"
  | .vBool b => some (if b then "true" else "false")
  | .vString s => some ("\"" ++ s ++ "\"")
  | .vInt n => some (toString n)
  | .vInt32 n => some (toString n)
  | .vInt64 n => some (toString n)
  | .vFloat32 q => some (toString q.num ++ "/" ++ toString q.den)
  | .vFloat64 q => some (toString q.num ++ "/" ++ toString q.den)
  | .vNumber raw => some raw
  | .vArr l =>
    match goJsonEncodeList l with
    | some parts => some ("[" ++ String.intercalate "," parts ++ "]")
    | none => none
  | .vMap m =>
    match goJsonEncodeEntries m with
    | some parts => some ("\x7b" ++ String.intercalate "," parts ++ "\x7d")
    | none => none
  | .vStrings l => some ("[" ++ String.intercalate "," (l.map (fun s => "\"" ++ s ++ "\"")) ++ "]")
  | .vOther => none

/-- Array elements for `goJsonEncode`. -/
def goJsonEncodeList : List GoValue → Option (List String)
  | [] => some []
  | v :: rest =>
    match goJsonEncode v, goJsonEncodeList rest with
    | some s, some ss => some (s :: ss)
    | _, _ => none

/-- Object entries for `goJsonEncode`. -/
def goJsonEncodeEntries : List (String × GoValue) → Option (List String)
  | [] => some []
  | (k, v) :: rest =>
    match goJsonEncode v, goJsonEncodeEntries rest with
    | some s, some ss => some (("\"" ++ k ++ "\":" ++ s) :: ss)
    | _, _ => none

end

/-- The tool-result serialisation of `buildConverseInput`: a native string
passes through, any other value is JSON-encoded, falling back to a
generic string conversion when encoding fails. -/
def outputTextOf (v : GoValue) : String :=
  match v with
  | .vString s => s
  | _ =>
    match goJsonEncode v with
    | some t => t
    | none => goSprintfV v

/-- The per-part arm of the message-conversion loop in
`buildConverseInput`: each generic part yields zero or one wire content
block. -/
def partToBlock : Part → Option ContentBlock
  | .text s => some (.text s)
  | .media contentType content =>
    let eff := mediaEffective contentType content
    some (.image (formatOfMediaType eff.1) eff.2)
  | .toolRequest name ref input => some (.toolUse ref name input)
  | .toolResponse ref output =>
    some (.toolResult ref
      (match output with
       | none => []
       | some v => [outputTextOf v]))
  | .otherPart => none

/-- Text extraction for system-role messages (non-text parts in a system
message are ignored). -/
def systemTextsOf (parts : List Part) : List String :=
  parts.filterMap (fun p =>
    match p with
    | .text s => some s
    | _ => none)

/-- The message-conversion loop of `buildConverseInput`: system messages
feed the system-prompt list; user/model/tool messages map to wire
messages (model becomes `assistant`, user and tool become `user`), and a
message whose block list is empty after mapping is dropped. -/
def convertMessagesAux : List AiMessage → List WireMessage × List String
  | [] => ([], [])
  | msg :: rest =>
    let tail := convertMessagesAux rest
    match msg.role with
    | .system => (tail.1, systemTextsOf msg.content ++ tail.2)
    | r =>
      let blocks := msg.content.filterMap partToBlock
      let bedrockRole :=
        if r = AiRole.model then ConversationRole.assistant else ConversationRole.user
      if blocks.isEmpty then (tail.1, tail.2)
      else ({ role := bedrockRole, content := blocks } :: tail.1, tail.2)

/-- The wire message list produced by the conversion loop. -/
def convertMessages (messages : List AiMessage) : List WireMessage :=
  (convertMessagesAux messages).1

/-- The trailing-turn rule of `buildConverseInput`: when tools are present
and the converted conversation ends with an assistant message, that
trailing message is removed (AWS Bedrock rejects a tool-enabled
conversation ending on an assistant turn). -/
def applyTrailingToolRule (tools : List ToolDefinition)
    (messages : List WireMessage) : List WireMessage :=
  if tools.length > 0 && messages.length > 0 then
    match messages.getLast? with
    | some lastMessage =>
      if lastMessage.role = ConversationRole.assistant then messages.dropLast
      else messages
    | none => messages
  else messages

/-- Go `int32(n)` two's-complement narrowing. -/
def int32cast (n : Int) : Int := (n + 2 ^ 31) % 2 ^ 32 - 2 ^ 31

/-- The wire `types.InferenceConfiguration` (float32 narrowing of
temperature and top-p is external precision loss not modelled; rationals
stay exact). -/
structure InferenceConfiguration where
  maxTokens : Option Int
  temperature : Option Rat
  topP : Option Rat
  stopSequences : List String

/-- The inference-configuration block of `buildConverseInput`: read from a
loosely typed config map, with `maxOutputTokens` tried before the
`max_tokens` alias, both requiring the dynamic type Go `int`;
`temperature` and `topP` requiring `float64`; `stopSequences` requiring
`[]string`. -/
def buildInferenceConfig (config : Option GoValue) : Option InferenceConfiguration :=
  match config with
  | some (GoValue.vMap configMap) =>
    let maxTokens :=
      match goLookup "maxOutputTokens" configMap with
      | some (.vInt n) => some (int32cast n)
      | _ =>
        match goLookup "max_tokens" configMap with
        | some (.vInt n) => some (int32cast n)
        | _ => none
    let temperature :=
      match goLookup "temperature" configMap with
      | some (.vFloat64 q) => some q
      | _ => none
    let topP :=
      match goLookup "topP" configMap with
      | some (.vFloat64 q) => some q
      | _ => none
    let stopSequences :=
      match goLookup "stopSequences" configMap with
      | some (.vStrings l) => l
      | _ => []
    some { maxTokens := maxTokens, temperature := temperature, topP := topP,
           stopSequences := stopSequences }
  | _ => none

/-- A wire tool specification (`types.ToolSpecification`); `inputSchema`
is the normalized schema document when conversion succeeded. -/
structure ToolSpec where
  name : String
  description : String
  inputSchema : Option GoMap

/-- The wire tool configuration (`types.ToolConfiguration`). -/
structure ToolConfiguration where
  tools : List ToolSpec

/-- Go source `convertJSONSchemaToBedrockSchema`: a nil schema is an
error; otherwise normalize and wrap as the wire document. -/
def convertJSONSchemaToBedrockSchema (schema : Option GoMap) : Except String GoMap :=
  match schema with
  | none => .error "schema is nil"
  | some m =>
    match normalizeSchema (.jmap m) with
    | .ok sm => .ok sm
    | .error e => .error ("failed to normalize schema: " ++ e)

/-- The per-tool arm of the tool-configuration loop in
`buildConverseInput`: name and description always carry over; a schema
conversion failure leaves the tool registered without a schema rather
than failing the request. -/
def buildToolSpec (tool : ToolDefinition) : ToolSpec :=
  let base : ToolSpec :=
    { name := tool.name, description := tool.description, inputSchema := none }
  match tool.inputSchema with
  | none => base
  | some m =>
    match convertJSONSchemaToBedrockSchema (some m) with
    | .ok schema => { base with inputSchema := some schema }
    | .error _ => base

/-- A generic model request (`ai.ModelRequest`) as this plugin reads it:
messages, tools, and a loosely typed config value. -/
structure ModelRequest where
  messages : List AiMessage
  tools : List ToolDefinition
  config : Option GoValue

/-- The wire request (`bedrockruntime.ConverseInput`); `system = []`
models an unset system field and `none` an unset config. -/
structure ConverseInput where
  modelId : String
  messages : List WireMessage
  system : List String
  inferenceConfig : Option InferenceConfiguration
  toolConfig : Option ToolConfiguration

/-- Go source `buildConverseInput`: convert messages (guarded by a
non-empty message list), apply the trailing-turn tool rule, then attach
inference configuration and tool configuration. -/
def buildConverseInput (modelName : String) (input : ModelRequest) : ConverseInput :=
  let msgsSys :=
    if input.messages.length > 0 then
      let converted := convertMessagesAux input.messages
      (applyTrailingToolRule input.tools converted.1, converted.2)
    else ([], [])
  let toolConfig :=
    if input.tools.length > 0 then
      some { tools := input.tools.map buildToolSpec : ToolConfiguration }
    else none
  { modelId := modelName
    messages := msgsSys.1
    system := msgsSys.2
    inferenceConfig := buildInferenceConfig input.config
    toolConfig := toolConfig }

/-- Generic finish reasons (`ai.FinishReason`). -/
inductive FinishReason where
  | stop
  | length
  | blocked
  | other
  | unknown
  deriving DecidableEq, Repr

/-- The wire stop-reason enumeration (`types.StopReason`);
`unrecognized` covers any other string value of the underlying wire
type. -/
inductive WireStopReason where
  | endTurn
  | maxTokens
  | stopSequence
  | toolUse
  | contentFiltered
  | guardrailIntervened
  | unrecognized (s : String)

/-- Go source `convertStopReasonToGenkit`. -/
def convertStopReasonToGenkit : WireStopReason → FinishReason
  | .endTurn => .stop
  | .maxTokens => .length
  | .stopSequence => .stop
  | .toolUse => .stop
  | .contentFiltered => .blocked
  | _ => .other

/-- Generic usage counts (`ai.GenerationUsage`). -/
structure GenerationUsage where
  inputTokens : Int
  outputTokens : Int
  totalTokens : Int

/-- A generic model response (`ai.ModelResponse`). -/
structure ModelResponse where
  message : AiMessage
  finishReason : FinishReason
  usage : Option GenerationUsage

/-- A streamed content-block delta (`types.ContentBlockDelta`); only text
deltas are consumed by the source, and `none` at the use site models a
nil `Delta` pointer. -/
inductive ContentBlockDelta where
  | text (s : String)
  | otherDelta

/-- A streaming event (`types.ConverseStreamOutput` members): text deltas,
the message-stop event, and any other member the source ignores. -/
inductive ConverseStreamEvent where
  | contentBlockDelta (delta : Option ContentBlockDelta)
  | messageStop (stopReason : WireStopReason)
  | otherEvent

/-- The event loop of `generateTextStream`.  The caller-supplied callback
is modelled as a function of the invocation index and the chunk text,
returning `none` for success or `some err` for failure (a Go closure's
internal state is a function of how many times it has been called).  The
result pairs the ordered list of chunk texts actually delivered to the
callback with either the callback failure (wrapped as in the source) or
the final response; on stream exhaustion without a message-stop event a
response is synthesised from the accumulated text with the default
`stop` finish reason. -/
def runStreamEvents (cb : Nat → String → Option String) :
    List ConverseStreamEvent → Nat → String → Option ModelResponse →
    List String × Except String ModelResponse
  | [], _, fullText, finalResponse =>
    ([],
      .ok
        (match finalResponse with
         | some r => r
         | none =>
           { message := { role := AiRole.model, content := [Part.text fullText] }
             finishReason := FinishReason.stop
             usage := none }))
  | ev :: rest, n, fullText, finalResponse =>
    match ev with
    | .contentBlockDelta (some (.text t)) =>
      let fullText2 := fullText ++ t
      match cb n t with
      | some e => ([t], .error ("callback error: " ++ e))
      | none =>
        let res := runStreamEvents cb rest (n + 1) fullText2 finalResponse
        (t :: res.1, res.2)
    | .contentBlockDelta _ => runStreamEvents cb rest n fullText finalResponse
    | .messageStop sr =>
      runStreamEvents cb rest n fullText
        (some { message := { role := AiRole.model, content := [Part.text fullText] }
                finishReason := convertStopReasonToGenkit sr
                usage := none })
    | .otherEvent => runStreamEvents cb rest n fullText finalResponse

/-- One streaming run: the chunks handed to the callback, the outcome,
and whether the wire stream was closed. -/
structure StreamRun where
  callbackChunks : List String
  outcome : Except String ModelResponse
  streamClosed : Bool

/-- Go source `generateTextStream` after a successful `ConverseStream`
call: run the event loop from the empty buffer.  The deferred
`GetStream().Close()` is registered immediately after the stream opens
and therefore runs on every exit path of the Go function; the model
records that as `streamClosed` being true unconditionally. -/
def generateTextStream (events : List ConverseStreamEvent)
    (cb : Nat → String → Option String) : StreamRun :=
  let r := runStreamEvents cb events 0 "" none
  { callbackChunks := r.1, outcome := r.2, streamClosed := true }

/-- A wire output content block as seen by `convertResponse`.  For a
tool-use block, `input = none` models a nil input document,
`some (.error e)` a document whose unmarshalling fails with message `e`,
and `some (.ok m)` a document decoding to the map `m`
(`UnmarshalSmithyDocument` is the external SDK decoder). -/
inductive OutContentBlock where
  | text (s : String)
  | toolUse (id : String) (name : String) (input : Option (Except String GoMap))
  | otherBlock

/-- The wire output message of a non-streaming converse call. -/
structure OutMessage where
  content : List OutContentBlock

/-- Wire token usage (`types.TokenUsage`, with the nil-pointer accessors
already applied). -/
structure TokenUsage where
  inputTokens : Int
  outputTokens : Int
  totalTokens : Int

/-- A non-streaming wire response (`bedrockruntime.ConverseOutput`):
`output = none` models a nil output or a non-message output member. -/
structure ConverseOutput where
  output : Option OutMessage
  stopReason : WireStopReason
  usage : Option TokenUsage

/-- The content-block extraction loop of `convertResponse`: text blocks
become text parts; tool-use blocks become tool-request parts whose input
is the decoded map coerced via the originating request's tool list, an
error placeholder map on unmarshal failure, or an empty map for a nil
input document; any other block kind is ignored. -/
def extractParts (blocks : List OutContentBlock)
    (tools : List ToolDefinition) : List Part :=
  blocks.filterMap (fun b =>
    match b with
    | .text s => some (Part.text s)
    | .toolUse id name input =>
      let toolInput :=
        match input with
        | none => GoValue.vMap []
        | some (.error e) =>
          GoValue.vMap [("_unmarshal_error", .vString e), ("_tool_use_id", .vString id)]
        | some (.ok m) => convertToolInputTypes m name tools
      some (Part.toolRequest name id toolInput)
    | .otherBlock => none)

/-- The content accumulated by `convertResponse` before the placeholder
check: the extracted parts of the output message, or nothing when the
output is nil or not a message member. -/
def responseContent (response : ConverseOutput)
    (originalTools : List ToolDefinition) : List Part :=
  match response.output with
  | some msg => extractParts msg.content originalTools
  | none => []

/-- Go source `convertResponse`: start from a model-role message with
empty content, append the extracted parts, convert the stop reason, map
usage, and finally insert a single empty-text placeholder part when no
content was extracted. -/
def convertResponse (response : ConverseOutput)
    (originalTools : List ToolDefinition) : ModelResponse :=
  let content := responseContent response originalTools
  let content2 := if content.isEmpty then [Part.text ""] else content
  { message := { role := AiRole.model, content := content2 }
    finishReason := convertStopReasonToGenkit response.stopReason
    usage := response.usage.map (fun u =>
      { inputTokens := u.inputTokens, outputTokens := u.outputTokens,
        totalTokens := u.totalTokens }) }

/-- Go source `generateTitanImage`, response-parsing stage: given the
decoded `images` field of a successful `InvokeModel` response, fail when
no image came back, else wrap the first image as a PNG data-URL media
part. -/
def generateTitanImageResult (images : List String) : Except String ModelResponse :=
  match images with
  | [] => .error "no images generated"
  | img :: _ =>
    .ok
      { message :=
          { role := AiRole.model
            content := [Part.media "image/png" ("data:image/png;base64," ++ img)] }
        finishReason := FinishReason.stop
        usage := none }

/-- One artifact of a Stable Diffusion response. -/
structure SDArtifact where
  base64 : String
  finishReason : String

/-- Go source `generateStableDiffusionImage`, response-parsing stage:
fail when the `artifacts` list is empty, else wrap the first artifact. -/
def generateStableDiffusionImageResult (artifacts : List SDArtifact) :
    Except String ModelResponse :=
  match artifacts with
  | [] => .error "no images generated"
  | a :: _ =>
    .ok
      { message :=
          { role := AiRole.model
            content := [Part.media "image/png" ("data:image/png;base64," ++ a.base64)] }
        finishReason := FinishReason.stop
        usage := none }

/-- Go source `generateNovaCanvasImage`, response-parsing stage: same
shape as Titan. -/
def generateNovaCanvasImageResult (images : List String) : Except String ModelResponse :=
  match images with
  | [] => .error "no images generated"
  | img :: _ =>
    .ok
      { message :=
          { role := AiRole.model
            content := [Part.media "image/png" ("data:image/png;base64," ++ img)] }
        finishReason := FinishReason.stop
        usage := none }

/-- Go source `getTitanEmbedding`, response-parsing stage: the decoded
`embedding` field is returned unconditionally — the source performs no
emptiness check here, unlike the image adapters and the Cohere
embedder.  Vector components are modelled as exact rationals. -/
def getTitanEmbeddingResult (embedding : List Rat) : Except String (List Rat) :=
  .ok embedding

/-- Go source `getCohereEmbedding`, response-parsing stage: fail when the
decoded `embeddings` list is empty, else return its first vector. -/
def getCohereEmbeddingResult (embeddings : List (List Rat)) : Except String (List Rat) :=
  match embeddings with
  | [] => .error "no embeddings returned"
  | e :: _ => .ok e

/-! ## Theorems -/

theorem goLookup_append_of_none {k : String} {m : GoMap} (h : goLookup k m = none)
    (v : GoValue) : goLookup k (m ++ [(k, v)]) = some v := by
  induction m with
  | nil => simp [goLookup]
  | cons hd tl ih =>
    simp only [goLookup, List.cons_append] at h ⊢
    by_cases hk : hd.1 = k
    · simp [hk] at h
    · simp only [hk, if_false] at h ⊢
      exact ih h

theorem goLookup_append_of_some {k k' : String} {m : GoMap} {w : GoValue}
    (h : goLookup k m = some w) (v : GoValue) :
    goLookup k (m ++ [(k', v)]) = some w := by
  induction m with
  | nil => simp [goLookup] at h
  | cons hd tl ih =>
    simp only [goLookup, List.cons_append] at h ⊢
    by_cases hk : hd.1 = k
    · simpa [hk] using h
    · simp only [hk, if_false] at h ⊢
      exact ih h

theorem goLookup_append_ne {k k' : String} (m : GoMap) (v : GoValue)
    (hne : k' ≠ k) : goLookup k (m ++ [(k', v)]) = goLookup k m := by
  induction m with
  | nil => simp [goLookup, hne]
  | cons hd tl ih =>
    simp only [goLookup, List.cons_append]
    by_cases hk : hd.1 = k
    · simp [hk]
    · simp only [hk, if_false]
      exact ih

theorem normalizeSchema_eq_decoded (s : SchemaInput) (m : GoMap)
    (h : decodedOf s = some m) :
    normalizeSchema s = .ok (validateAndNormalizeJSONSchema m) := by
  cases s with
  | jmap m' =>
    simp only [decodedOf, Option.some_inj] at h
    subst h; rfl
  | jstr d => cases d with
    | none => simp [decodedOf] at h
    | some m' =>
      simp only [decodedOf, Option.some_inj] at h
      subst h; rfl
  | jbytes d => cases d with
    | none => simp [decodedOf] at h
    | some m' =>
      simp only [decodedOf, Option.some_inj] at h
      subst h; rfl
  | jother d => cases d with
    | none => simp [decodedOf] at h
    | some m' =>
      simp only [decodedOf, Option.some_inj] at h
      subst h; rfl

theorem defaultTypeStep_type_isSome (m : GoMap) :
    (goLookup "type" (defaultTypeStep m)).isSome := by
  unfold defaultTypeStep
  split
  · rename_i h
    rw [goLookup_append_of_none (Option.isNone_iff_eq_none.mp h)]; rfl
  · rename_i h
    rw [Option.isSome_iff_ne_none]
    intro hn
    exact h (by rw [hn]; rfl)

theorem defaultPropsStep_lookup_ne (m : GoMap) (k : String) (hk : k ≠ "properties") :
    goLookup k (defaultPropsStep m) = goLookup k m := by
  unfold defaultPropsStep
  by_cases hc : (goIsStringEq (goLookup "type" m) "object" &&
      (goLookup "properties" m).isNone) = true
  · rw [if_pos hc, goLookup_append_ne _ _ (fun h => hk h.symm)]
  · rw [if_neg hc]

theorem defaultSchemaStep_lookup_ne (m : GoMap) (k : String) (hk : k ≠ "$schema") :
    goLookup k (defaultSchemaStep m) = goLookup k m := by
  unfold defaultSchemaStep
  by_cases hc : (goLookup "$schema" m).isNone = true
  · rw [if_pos hc, goLookup_append_ne _ _ (fun h => hk h.symm)]
  · rw [if_neg hc]

theorem defaultPropsStep_props_isSome (m : GoMap)
    (h : goIsStringEq (goLookup "type" (defaultPropsStep m)) "object" = true) :
    (goLookup "properties" (defaultPropsStep m)).isSome := by
  unfold defaultPropsStep at h ⊢
  by_cases hc : (goIsStringEq (goLookup "type" m) "object" &&
      (goLookup "properties" m).isNone) = true
  · rw [if_pos hc]
    have hp : goLookup "properties" m = none := by
      have := (Bool.and_eq_true _ _).mp hc
      cases hpm : goLookup "properties" m with
      | none => rfl
      | some v => rw [hpm] at this; simp at this
    rw [goLookup_append_of_none hp]; rfl
  · rw [if_neg hc] at h ⊢
    rw [Bool.and_eq_true, not_and] at hc
    have hnn := hc h
    cases hpm : goLookup "properties" m with
    | none => rw [hpm] at hnn; simp at hnn
    | some v => rfl

theorem defaultSchemaStep_schema_isSome (m : GoMap) :
    (goLookup "$schema" (defaultSchemaStep m)).isSome := by
  unfold defaultSchemaStep
  split
  · rename_i h
    rw [goLookup_append_of_none (Option.isNone_iff_eq_none.mp h)]; rfl
  · rename_i h
    rw [Option.isSome_iff_ne_none]
    intro hn
    exact h (by rw [hn]; rfl)

/-- After normalization, `type` is present. -/
theorem vN_type_isSome (m : GoMap) :
    (goLookup "type" (validateAndNormalizeJSONSchema m)).isSome := by
  unfold validateAndNormalizeJSONSchema
  rw [defaultSchemaStep_lookup_ne _ _ (by decide),
    defaultPropsStep_lookup_ne _ _ (by decide)]
  exact defaultTypeStep_type_isSome m

/-- After normalization, if `type` is the string `"object"` then
`properties` is present. -/
theorem vN_props_isSome (m : GoMap)
    (h : goIsStringEq (goLookup "type" (validateAndNormalizeJSONSchema m)) "object" = true) :
    (goLookup "properties" (validateAndNormalizeJSONSchema m)).isSome := by
  unfold validateAndNormalizeJSONSchema at h ⊢
  rw [defaultSchemaStep_lookup_ne _ _ (by decide)]
  rw [defaultSchemaStep_lookup_ne _ _ (by decide)] at h
  exact defaultPropsStep_props_isSome _ h

/-- After normalization, `$schema` is present. -/
theorem vN_schema_isSome (m : GoMap) :
    (goLookup "$schema" (validateAndNormalizeJSONSchema m)).isSome := by
  unfold validateAndNormalizeJSONSchema
  exact defaultSchemaStep_schema_isSome _

/-- Normalizing an already-normalized schema map changes nothing: each
defaulting block finds its key already present. -/
theorem vN_idempotent (m : GoMap) :
    validateAndNormalizeJSONSchema (validateAndNormalizeJSONSchema m) =
      validateAndNormalizeJSONSchema m := by
  have h1 : defaultTypeStep (validateAndNormalizeJSONSchema m) =
      validateAndNormalizeJSONSchema m := by
    have hneg : ¬ ((goLookup "type" (validateAndNormalizeJSONSchema m)).isNone = true) := by
      intro hc
      have hs := vN_type_isSome m
      rw [Option.isNone_iff_eq_none.mp hc] at hs
      simp at hs
    unfold defaultTypeStep
    rw [if_neg hneg]
  have h2 : defaultPropsStep (validateAndNormalizeJSONSchema m) =
      validateAndNormalizeJSONSchema m := by
    have hneg : ¬ ((goIsStringEq (goLookup "type" (validateAndNormalizeJSONSchema m)) "object" &&
        (goLookup "properties" (validateAndNormalizeJSONSchema m)).isNone) = true) := by
      intro hc
      rw [Bool.and_eq_true] at hc
      have hprops := vN_props_isSome m hc.1
      rw [Option.isNone_iff_eq_none.mp hc.2] at hprops
      simp at hprops
    unfold defaultPropsStep
    rw [if_neg hneg]
  have h3 : defaultSchemaStep (validateAndNormalizeJSONSchema m) =
      validateAndNormalizeJSONSchema m := by
    have hneg : ¬ ((goLookup "$schema" (validateAndNormalizeJSONSchema m)).isNone = true) := by
      intro hc
      have hs := vN_schema_isSome m
      rw [Option.isNone_iff_eq_none.mp hc] at hs
      simp at hs
    unfold defaultSchemaStep
    rw [if_neg hneg]
  show defaultSchemaStep (defaultPropsStep (defaultTypeStep
      (validateAndNormalizeJSONSchema m))) = validateAndNormalizeJSONSchema m
  rw [h1, h2, h3]

/-- C5: Schema normalization is idempotent: for every decodable schema
input `s`, normalizing the (map-typed) result of normalizing `s` yields a
result identical to normalizing `s` once. -/
theorem normalizeSchema_idempotent (s : SchemaInput) (m : GoMap)
    (h : normalizeSchema s = .ok m) :
    normalizeSchema (SchemaInput.jmap m) = .ok m := by
  obtain ⟨m0, rfl⟩ : ∃ m0, m = validateAndNormalizeJSONSchema m0 := by
    cases s with
    | jmap m' =>
      simp only [normalizeSchema, Except.ok.injEq] at h
      exact ⟨m', h.symm⟩
    | jstr d =>
      cases d with
      | none => simp [normalizeSchema] at h
      | some m' =>
        simp only [normalizeSchema, Except.ok.injEq] at h
        exact ⟨m', h.symm⟩
    | jbytes d =>
      cases d with
      | none => simp [normalizeSchema] at h
      | some m' =>
        simp only [normalizeSchema, Except.ok.injEq] at h
        exact ⟨m', h.symm⟩
    | jother d =>
      cases d with
      | none => simp [normalizeSchema] at h
      | some m' =>
        simp only [normalizeSchema, Except.ok.injEq] at h
        exact ⟨m', h.symm⟩
  simp only [normalizeSchema, Except.ok.injEq]
  exact vN_idempotent m0

/-- Witness for C5 at a concrete schema map. -/
theorem normalizeSchema_idempotent_witness :
    normalizeSchema (SchemaInput.jmap (validateAndNormalizeJSONSchema
      [("description", GoValue.vString "weather")])) =
      .ok (validateAndNormalizeJSONSchema [("description", GoValue.vString "weather")]) :=
  normalizeSchema_idempotent
    (SchemaInput.jmap [("description", GoValue.vString "weather")]) _ rfl

/-- C6: for every decodable schema input lacking a `type` key,
normalization returns a mapping whose `type` is the string `"object"` and
which contains a `properties` key.  (The source never mutates the
caller's map: `validateAndNormalizeJSONSchema` copies all keys into a
fresh map first, which the pure embedding reflects by construction.) -/
theorem normalizeSchema_defaults_missing_type (s : SchemaInput) (d m : GoMap)
    (hd : decodedOf s = some d) (hty : goLookup "type" d = none)
    (hn : normalizeSchema s = .ok m) :
    goLookup "type" m = some (GoValue.vString "object") ∧
      (goLookup "properties" m).isSome := by
  rw [normalizeSchema_eq_decoded s d hd] at hn
  simp only [Except.ok.injEq] at hn
  subst hn
  have hobj : goLookup "type" (validateAndNormalizeJSONSchema d) =
      some (GoValue.vString "object") := by
    unfold validateAndNormalizeJSONSchema
    rw [defaultSchemaStep_lookup_ne _ _ (by decide),
      defaultPropsStep_lookup_ne _ _ (by decide)]
    unfold defaultTypeStep
    rw [if_pos (by rw [hty]; rfl)]
    exact goLookup_append_of_none hty _
  exact ⟨hobj, vN_props_isSome d (by rw [hobj]; rfl)⟩

/-- Witness for C6 at the empty schema map. -/
theorem normalizeSchema_defaults_missing_type_witness :
    goLookup "type" (validateAndNormalizeJSONSchema []) =
      some (GoValue.vString "object") ∧
    (goLookup "properties" (validateAndNormalizeJSONSchema [])).isSome :=
  normalizeSchema_defaults_missing_type (SchemaInput.jmap []) [] _ rfl rfl rfl

/-- C7: for the schema `{type: "integer"}`, the string `"42"` coerces to
the (int64) integer `42`, and the string `"abc"` passes through
unchanged with no failure. -/
theorem convertValueWithSchema_integer_string :
    convertValueWithSchema (GoValue.vString "42")
      [("type", GoValue.vString "integer")] = GoValue.vInt64 42 ∧
    convertValueWithSchema (GoValue.vString "abc")
      [("type", GoValue.vString "integer")] = GoValue.vString "abc" := by
  constructor <;>
    simp [convertValueWithSchema, goLookup, parseGoFloat, isDecDigit, digitsToNat, truncRat]

/-- The per-key coercion loop touches only values, never the key list. -/
theorem convertMapEntries_keys (props m : GoMap) :
    (convertMapEntries m props).map Prod.fst = m.map Prod.fst := by
  induction m with
  | nil => simp [convertMapEntries]
  | cons hd tl ih =>
    cases hd
    simp [convertMapEntries, ih]

/-- C8: for every mapping-valued input and every object schema, the
coerced output is a mapping with exactly the input's keys — schema
properties absent from the input are never materialized and input keys
are never removed. -/
theorem convertValueWithSchema_map_keys (m schema : GoMap)
    (hty : goLookup "type" schema = some (GoValue.vString "object")) :
    ∃ m', convertValueWithSchema (GoValue.vMap m) schema = GoValue.vMap m' ∧
      m'.map Prod.fst = m.map Prod.fst := by
  have hstep : convertValueWithSchema (GoValue.vMap m) schema =
      convertMapWithSchema m schema := by
    simp [convertValueWithSchema, hty]
  rw [hstep]
  cases hp : goLookup "properties" schema with
  | none =>
    refine ⟨m, ?_, rfl⟩
    simp [convertMapWithSchema, hty, hp]
  | some v =>
    cases v
    case vMap props =>
      refine ⟨convertMapEntries m props, ?_, convertMapEntries_keys props m⟩
      simp [convertMapWithSchema, hty, hp]
    all_goals
      refine ⟨m, ?_, rfl⟩
      simp [convertMapWithSchema, hty, hp]

/-- A concrete object schema for the C8 witness, declaring properties
`a` and `b`. -/
def keysSchemaEx : GoMap :=
  [("type", GoValue.vString "object"),
   ("properties", GoValue.vMap
     [("a", GoValue.vMap [("type", GoValue.vString "integer")]),
      ("b", GoValue.vMap [("type", GoValue.vString "string")])])]

/-- Witness for C8: an input holding only key `a` keeps exactly key `a`
(the schema's `b` is not materialized). -/
theorem convertValueWithSchema_map_keys_witness :
    ∃ m', convertValueWithSchema (GoValue.vMap [("a", GoValue.vString "7")]) keysSchemaEx =
        GoValue.vMap m' ∧
      m'.map Prod.fst = [("a", GoValue.vString "7")].map Prod.fst :=
  convertValueWithSchema_map_keys [("a", GoValue.vString "7")] keysSchemaEx rfl

/-- The messages field of a built request is exactly the converted
message list with the trailing-turn tool rule applied (the empty-input
guard in the source makes no difference: converting no messages yields no
messages). -/
theorem buildConverseInput_messages (modelName : String) (input : ModelRequest) :
    (buildConverseInput modelName input).messages =
      applyTrailingToolRule input.tools (convertMessages input.messages) := by
  unfold buildConverseInput convertMessages
  by_cases h : input.messages.length > 0
  · simp [h]
  · have hnil : input.messages = [] :=
      List.length_eq_zero.mp (Nat.le_zero.mp (Nat.not_lt.mp h))
    rw [hnil]
    simp [applyTrailingToolRule, convertMessagesAux]

/-- C1: a tool-carrying request whose converted wire message list ends
with an assistant-role message has that trailing message removed by the
request builder; the same request with an empty tool list keeps it. -/
theorem buildConverseInput_trailing_assistant (modelName : String)
    (input : ModelRequest) (lastMessage : WireMessage)
    (hTools : input.tools ≠ [])
    (hLast : (convertMessages input.messages).getLast? = some lastMessage)
    (hRole : lastMessage.role = ConversationRole.assistant) :
    (buildConverseInput modelName input).messages =
      (convertMessages input.messages).dropLast ∧
    (buildConverseInput modelName { input with tools := [] }).messages =
      convertMessages input.messages := by
  have hne : convertMessages input.messages ≠ [] := by
    intro h0
    rw [h0] at hLast
    simp at hLast
  have hlen : (convertMessages input.messages).length > 0 := List.length_pos.mpr hne
  have htl : input.tools.length > 0 := List.length_pos.mpr hTools
  constructor
  · rw [buildConverseInput_messages]
    unfold applyTrailingToolRule
    rw [if_pos (by simp [htl, hlen])]
    rw [hLast]
    exact if_pos hRole
  · rw [buildConverseInput_messages]
    unfold applyTrailingToolRule
    simp

/-- A concrete request for the C1 witness: one tool, user turn then
model turn. -/
def trailingReqEx : ModelRequest :=
  { messages :=
      [ { role := AiRole.user, content := [Part.text "hi"] },
        { role := AiRole.model, content := [Part.text "ok"] } ]
    tools := [ { name := "t", description := "d", inputSchema := none } ]
    config := none }

/-- Witness for C1 at `trailingReqEx`. -/
theorem buildConverseInput_trailing_assistant_witness :
    (buildConverseInput "m" trailingReqEx).messages =
      (convertMessages trailingReqEx.messages).dropLast ∧
    (buildConverseInput "m" { trailingReqEx with tools := [] }).messages =
      convertMessages trailingReqEx.messages :=
  buildConverseInput_trailing_assistant "m" trailingReqEx
    { role := ConversationRole.assistant, content := [ContentBlock.text "ok"] }
    (by simp [trailingReqEx]) rfl rfl

/-- Splitting a separator-free character list is the identity. -/
theorem splitChar_of_not_mem {sep : Char} {l : List Char} (h : sep ∉ l) :
    splitChar sep l = [l] := by
  induction l with
  | nil => rfl
  | cons c cs ih =>
    have hc : ¬ (c = sep) := fun he => h (he ▸ List.mem_cons_self c cs)
    have hcs : sep ∉ cs := fun hm => h (List.mem_cons_of_mem _ hm)
    simp [splitChar, hc, ih hcs]

/-- Splitting around a single separator occurrence yields the two
separator-free pieces. -/
theorem splitChar_single {sep : Char} {a b : List Char}
    (ha : sep ∉ a) (hb : sep ∉ b) :
    splitChar sep (a ++ sep :: b) = [a, b] := by
  induction a with
  | nil => simp [splitChar, splitChar_of_not_mem hb]
  | cons c cs ih =>
    have hc : ¬ (c = sep) := fun he => ha (he ▸ List.mem_cons_self c cs)
    have hcs : sep ∉ cs := fun hm => ha (List.mem_cons_of_mem _ hm)
    simp [splitChar, hc, ih hcs]

/-- A `data:image/jpeg;base64,<payload>` data URL with a comma-free
payload (every base64 payload is comma-free) resolves to MIME type
`image/jpeg` with the payload after the comma. -/
theorem mediaEffective_jpeg_dataURL (payload : String) (h : ',' ∉ payload.data) :
    mediaEffective "" ("data:image/jpeg;base64," ++ payload) = ("image/jpeg", payload) := by
  have hdata : ("data:image/jpeg;base64," ++ payload).data =
      "data:image/jpeg;base64".data ++ ',' :: payload.data := rfl
  have hsplit : goSplit ',' ("data:image/jpeg;base64," ++ payload) =
      ["data:image/jpeg;base64", payload] := by
    unfold goSplit
    rw [hdata, splitChar_single (by decide) h]
    rfl
  have hpre : goStartsWith "data:" ("data:image/jpeg;base64," ++ payload) = true := rfl
  unfold mediaEffective
  rw [hpre, if_pos rfl, hsplit]
  rfl

/-- C9: an `image/jpeg` data URL maps to a wire image block with format
`jpeg`, and any media part whose effective MIME type is outside the
{png, jpeg/jpg, gif, webp} table maps to format `png`. -/
theorem media_format_mapping :
    (∀ payload : String, ',' ∉ payload.data →
      partToBlock (Part.media "" ("data:image/jpeg;base64," ++ payload)) =
        some (ContentBlock.image ImageFormat.jpeg payload)) ∧
    (∀ contentType content : String,
      (mediaEffective contentType content).1 ∉
        ["image/png", "image/jpeg", "image/jpg", "image/gif", "image/webp"] →
      partToBlock (Part.media contentType content) =
        some (ContentBlock.image ImageFormat.png
          (mediaEffective contentType content).2)) := by
  constructor
  · intro payload h
    have heff := mediaEffective_jpeg_dataURL payload h
    simp [partToBlock, heff, formatOfMediaType]
  · intro contentType content h
    simp only [List.mem_cons, List.mem_singleton, not_or] at h
    obtain ⟨h1, h2, h3, h4, h5⟩ := h
    unfold partToBlock
    simp [formatOfMediaType, h1, h2, h3, h4, h5]

/-- Witness for C9: a concrete jpeg data URL, and a concrete
`image/tiff` part. -/
theorem media_format_mapping_witness :
    partToBlock (Part.media "" ("data:image/jpeg;base64," ++ "aGVsbG8=")) =
      some (ContentBlock.image ImageFormat.jpeg "aGVsbG8=") ∧
    partToBlock (Part.media "image/tiff" "xyz") =
      some (ContentBlock.image ImageFormat.png
        (mediaEffective "image/tiff" "xyz").2) :=
  ⟨media_format_mapping.1 "aGVsbG8=" (by decide),
   media_format_mapping.2 "image/tiff" "xyz" (by decide)⟩

/-- C3: three text deltas followed by stream exhaustion invoke the
callback exactly three times, in order, each with only that delta's
text, and yield the concatenated text with the default `stop` finish
reason. -/
theorem generateTextStream_three_deltas (cb : Nat → String → Option String)
    (h0 : cb 0 "Hel" = none) (h1 : cb 1 "lo " = none) (h2 : cb 2 "world" = none) :
    generateTextStream
      [ConverseStreamEvent.contentBlockDelta (some (ContentBlockDelta.text "Hel")),
       ConverseStreamEvent.contentBlockDelta (some (ContentBlockDelta.text "lo ")),
       ConverseStreamEvent.contentBlockDelta (some (ContentBlockDelta.text "world"))] cb =
    { callbackChunks := ["Hel", "lo ", "world"]
      outcome := .ok
        { message := { role := AiRole.model, content := [Part.text "Hello world"] }
          finishReason := FinishReason.stop
          usage := none }
      streamClosed := true } := by
  simp [generateTextStream, runStreamEvents, h0, h1, h2]

/-- Witness for C3 with an always-succeeding callback. -/
theorem generateTextStream_three_deltas_witness :
    generateTextStream
      [ConverseStreamEvent.contentBlockDelta (some (ContentBlockDelta.text "Hel")),
       ConverseStreamEvent.contentBlockDelta (some (ContentBlockDelta.text "lo ")),
       ConverseStreamEvent.contentBlockDelta (some (ContentBlockDelta.text "world"))]
      (fun _ _ => none) =
    { callbackChunks := ["Hel", "lo ", "world"]
      outcome := .ok
        { message := { role := AiRole.model, content := [Part.text "Hello world"] }
          finishReason := FinishReason.stop
          usage := none }
      streamClosed := true } :=
  generateTextStream_three_deltas (fun _ _ => none) rfl rfl rfl

/-- C4: a callback failing on the second delta stops the run after
exactly two callback invocations, surfaces the wrapped callback error
with no partial response, and the stream is still closed on this exit
path. -/
theorem generateTextStream_callback_failure (cb : Nat → String → Option String)
    (e : String) (h0 : cb 0 "Hel" = none) (h1 : cb 1 "lo " = some e) :
    generateTextStream
      [ConverseStreamEvent.contentBlockDelta (some (ContentBlockDelta.text "Hel")),
       ConverseStreamEvent.contentBlockDelta (some (ContentBlockDelta.text "lo ")),
       ConverseStreamEvent.contentBlockDelta (some (ContentBlockDelta.text "world"))] cb =
    { callbackChunks := ["Hel", "lo "]
      outcome := .error ("callback error: " ++ e)
      streamClosed := true } := by
  simp [generateTextStream, runStreamEvents, h0, h1]

/-- Witness for C4 with a callback failing from its second invocation
on. -/
theorem generateTextStream_callback_failure_witness :
    generateTextStream
      [ConverseStreamEvent.contentBlockDelta (some (ContentBlockDelta.text "Hel")),
       ConverseStreamEvent.contentBlockDelta (some (ContentBlockDelta.text "lo ")),
       ConverseStreamEvent.contentBlockDelta (some (ContentBlockDelta.text "world"))]
      (fun n _ => if n = 0 then none else some "boom") =
    { callbackChunks := ["Hel", "lo "]
      outcome := .error ("callback error: " ++ "boom")
      streamClosed := true } :=
  generateTextStream_callback_failure
    (fun n _ => if n = 0 then none else some "boom") "boom" rfl rfl

/-- C10: every converted non-streaming response carries a model-role
message with non-empty content, and when nothing was extracted the
content is exactly one empty-text placeholder part. -/
theorem convertResponse_nonempty (response : ConverseOutput)
    (tools : List ToolDefinition) :
    (convertResponse response tools).message.role = AiRole.model ∧
    (convertResponse response tools).message.content ≠ [] ∧
    (responseContent response tools = [] →
      (convertResponse response tools).message.content = [Part.text ""]) := by
  refine ⟨rfl, ?_, ?_⟩
  · show (if (responseContent response tools).isEmpty then [Part.text ""]
        else responseContent response tools) ≠ []
    cases h : responseContent response tools with
    | nil => simp
    | cons a l => simp
  · intro h
    show (if (responseContent response tools).isEmpty then [Part.text ""]
        else responseContent response tools) = [Part.text ""]
    rw [h]
    rfl

/-- A wire response with a nil output for the C10 witness. -/
def emptyRespEx : ConverseOutput :=
  { output := none, stopReason := WireStopReason.endTurn, usage := none }

/-- Witness for C10 at a response with no extractable content. -/
theorem convertResponse_nonempty_witness :
    (convertResponse emptyRespEx []).message.role = AiRole.model ∧
    (convertResponse emptyRespEx []).message.content ≠ [] ∧
    (convertResponse emptyRespEx []).message.content = [Part.text ""] :=
  ⟨(convertResponse_nonempty emptyRespEx []).1,
   (convertResponse_nonempty emptyRespEx []).2.1,
   (convertResponse_nonempty emptyRespEx []).2.2 rfl⟩

/-- C2 counterexample: the Titan embedding adapter does not fail on an
empty parsed embedding — it returns success carrying the empty vector,
so the claim, which asserts an empty-result failure for every adapter
family including Titan embedding, is false at this input. -/
theorem getTitanEmbeddingResult_empty_ok :
    getTitanEmbeddingResult [] = .ok [] := rfl

/-- C2 amended: a zero-artifact parsed response fails the Titan image,
Stable Diffusion and Nova Canvas image adapters and the Cohere embedding
adapter with the source's empty-result error; the Titan embedding
adapter alone performs no emptiness check and returns the decoded
(possibly empty) vector as success. -/
theorem empty_result_error_families :
    generateTitanImageResult [] = .error "no images generated" ∧
    generateStableDiffusionImageResult [] = .error "no images generated" ∧
    generateNovaCanvasImageResult [] = .error "no images generated" ∧
    getCohereEmbeddingResult [] = .error "no embeddings returned" ∧
    (∀ embedding : List Rat, getTitanEmbeddingResult embedding = .ok embedding) :=
  ⟨rfl, rfl, rfl, rfl, fun _ => rfl⟩

end Bedrock
